import Mathlib

/-
Formal model of the rssbot feed store, throttle and delivery loop
(src/data.rs, src/fetcher.rs), as a shallow embedding in Lean 4.

HashMap and HashSet are modelled as functional maps (with Option values)
and duplicate-free lists; Rust panics (unwrap on None, index on a missing
key) are modelled by an outer Option: a `none` result means the original
code panics.  The ghost field `saveCount` counts invocations of
`Database::save` (persistence events); `save` itself does no in-memory
mutation in the source.
-/

namespace Rssbot

/-- Size of the machine word for u64 and usize arithmetic. -/
def usizeSize : Nat := 2 ^ 64

/-- Model of `gen_hash` (data.rs:21-25): std's DefaultHasher is an
unspecified, fixed, deterministic 64-bit hash of the string; we model it
by a concrete deterministic 64-bit string hash (FNV-1a style).  No claim
depends on particular hash values, only on hashes of the concrete distinct
short strings in the scenarios being distinct, which holds for the real
hasher as well. -/
def genHash (s : String) : Nat :=
  s.data.foldl (fun h c => (h * 1099511628211 + c.toNat) % usizeSize) 14695981039346656037

/-- FeedId = u64 (data.rs:27). -/
abbrev FeedId := Nat

/-- SubscriberId = i64 (data.rs:28). -/
abbrev SubscriberId := Int

/-- FeedSettings (data.rs:30-36): four independent optional toggles. -/
structure FeedSettings where
  disable_preview : Option Bool
  link_only : Option Bool
  hide_rss_title : Option Bool
  combine_msg : Option Bool
  deriving DecidableEq, Repr

/-- Rust Default for FeedSettings: all fields None. -/
def FeedSettings.defaultSettings : FeedSettings := ⟨none, none, none, none⟩

/-- Model of `get_combined_feed_settings` (data.rs:38-46). -/
def get_combined_feed_settings (settings : Option FeedSettings) : FeedSettings :=
  let before := settings.getD FeedSettings.defaultSettings
  { disable_preview := some (before.disable_preview.getD true)
    link_only := some (before.link_only.getD false)
    hide_rss_title := some (before.hide_rss_title.getD false)
    combine_msg := some (before.combine_msg.getD true) }

/-- Modelled from the spec: the normalized feed item produced by the
network fetch collaborator (feed module, not part of the analysed sources;
spec section 6: an item has an optional stable identifier, optional title,
optional link).  Field names follow the uses in data.rs (item.id,
item.title, item.link). -/
structure Item where
  id : Option String
  title : Option String
  link : Option String
  deriving DecidableEq, Repr

/-- Modelled from the spec: the normalized feed returned by the network
fetch collaborator (spec section 6: title, optional TTL in minutes,
ordered list of items).  Field names follow the uses in data.rs. -/
structure Rss where
  title : String
  ttl : Option Nat
  items : List Item
  deriving DecidableEq, Repr

/-- Model of `gen_item_hash` (data.rs:371-377). -/
def genItemHash (item : Item) : Nat :=
  match item.id with
  | some i => genHash i
  | none => genHash ((item.title.getD "") ++ (item.link.getD ""))

/-- Feed record (data.rs:48-57).  The subscriber HashSet is a
duplicate-free list, the settings HashMap a functional map, down_time an
abstract timestamp. -/
structure Feed where
  link : String
  title : String
  down_time : Option Nat
  subscribers : List SubscriberId
  ttl : Option Nat
  hash_list : List Nat
  settings : Option (SubscriberId → Option FeedSettings)

/-- Database (data.rs:65-70) plus the ghost persistence counter. -/
structure Database where
  feeds : FeedId → Option Feed
  subscribers : SubscriberId → Option (List FeedId)
  saveCount : Nat

/-- Empty store, as built by `Database::create`. -/
def Database.empty : Database :=
  { feeds := fun _ => none, subscribers := fun _ => none, saveCount := 0 }

/-- Model of `Database::save` (data.rs:352-363): a pure persistence event,
counted by the ghost field. -/
def Database.save (db : Database) : Database :=
  { db with saveCount := db.saveCount + 1 }

/-- HashMap::insert on a functional map. -/
def mapInsert {κ α : Type} [DecidableEq κ] (k : κ) (v : α) (m : κ → Option α) :
    κ → Option α :=
  fun k2 => if k2 = k then some v else m k2

/-- HashMap::remove on a functional map. -/
def mapRemove {κ α : Type} [DecidableEq κ] (k : κ) (m : κ → Option α) :
    κ → Option α :=
  fun k2 => if k2 = k then none else m k2

/-- HashMap entry().or_insert(v): insert v only when the key is absent. -/
def mapOrInsert {κ α : Type} [DecidableEq κ] (k : κ) (v : α) (m : κ → Option α) :
    κ → Option α :=
  match m k with
  | some _ => m
  | none => mapInsert k v m

/-- HashSet::insert on a list-modelled set. -/
def listInsert {α : Type} [DecidableEq α] (a : α) (l : List α) : List α :=
  if a ∈ l then l else a :: l

/-- HashSet::remove on a list-modelled set. -/
def listRemove {α : Type} [DecidableEq α] (a : α) (l : List α) : List α :=
  l.filter (fun b => b ≠ a)

/-- Model of `Database::subscribe` (data.rs:175-205).  Returns `none` on a
panic (the settings unwrap at data.rs:199), otherwise the bool result and
the new store. -/
def Database.subscribe (db : Database) (subscriber : SubscriberId) (rss_link : String)
    (rss : Rss) : Option (Bool × Database) :=
  let feed_id := genHash rss_link
  let subscribed_feeds := (db.subscribers subscriber).getD []
  if feed_id ∈ subscribed_feeds then
    some (false, db)
  else
    let subscribers1 := mapInsert subscriber (listInsert feed_id subscribed_feeds) db.subscribers
    let feed0 : Feed :=
      match db.feeds feed_id with
      | some f => f
      | none =>
        { link := rss_link, title := rss.title, down_time := none, ttl := rss.ttl
          hash_list := rss.items.map genItemHash, subscribers := []
          settings := some (fun _ => none) }
    match feed0.settings with
    | none => none
    | some m =>
      let feed1 : Feed :=
        { feed0 with
          subscribers := listInsert subscriber feed0.subscribers
          settings := some (mapOrInsert subscriber FeedSettings.defaultSettings m) }
      some (true, Database.save
        { db with subscribers := subscribers1, feeds := mapInsert feed_id feed1 db.feeds })

/-- Model of `Database::unsubscribe` (data.rs:207-242).  Returns `none` on
a panic (settings unwrap at data.rs:227); the early `return None` paths at
data.rs:232 and 235 keep the mutations already applied, exactly as the
source does. -/
def Database.unsubscribe (db : Database) (subscriber : SubscriberId) (rss_link : String) :
    Option (Option Feed × Database) :=
  let feed_id := genHash rss_link
  match db.subscribers subscriber with
  | none => some (none, db)
  | some subscribed_feeds =>
    if feed_id ∈ subscribed_feeds then
      let feeds2 := listRemove feed_id subscribed_feeds
      let db1 : Database :=
        { db with subscribers :=
            if feeds2.isEmpty then mapRemove subscriber db.subscribers
            else mapInsert subscriber feeds2 db.subscribers }
      match db1.feeds feed_id with
      | none => some (none, db1)
      | some feed =>
        match feed.settings with
        | none => none
        | some m =>
          let feed1 : Feed := { feed with settings := some (mapRemove subscriber m) }
          if subscriber ∈ feed1.subscribers then
            let feed2 : Feed := { feed1 with subscribers := listRemove subscriber feed1.subscribers }
            let db2 : Database :=
              { db1 with feeds :=
                  if feed2.subscribers.isEmpty then mapRemove feed_id db1.feeds
                  else mapInsert feed_id feed2 db1.feeds }
            some (some feed2, db2.save)
          else
            some (none, { db1 with feeds := mapInsert feed_id feed1 db1.feeds })
    else
      some (none, db)

/-- Model of `Database::subscribed_feeds` (data.rs:135-143).  The index
expression feeds[feed_id] panics on a missing key, modelled by the outer
Option. -/
def Database.subscribed_feeds (db : Database) (subscriber : SubscriberId) :
    Option (Option (List Feed)) :=
  match db.subscribers subscriber with
  | none => some none
  | some fids =>
    match fids.mapM (fun fid => db.feeds fid) with
    | none => none
    | some fs => some (some fs)

/-- Iteration inside `Database::delete_subscriber`: unsubscribe the
subscriber from each feed of the snapshot in turn, discarding results,
propagating panics. -/
def unsubscribeAll (subscriber : SubscriberId) : List Feed → Database → Option Database
  | [], db => some db
  | f :: rest, db =>
    match db.unsubscribe subscriber f.link with
    | none => none
    | some (_, db1) => unsubscribeAll subscriber rest db1

/-- Model of `Database::delete_subscriber` (data.rs:244-252). -/
def Database.delete_subscriber (db : Database) (subscriber : SubscriberId) :
    Option (Bool × Database) :=
  match db.subscribed_feeds subscriber with
  | none => none
  | some none => some (false, db)
  | some (some fs) =>
    match unsubscribeAll subscriber fs db with
    | none => none
    | some db1 => some (true, db1)

/-- Loop body of `Database::update_subscriber` (data.rs:258-266): for each
feed id of the moved index entry, move the subscriber-set entry and the
settings entry from the old to the new identifier.  The unwraps at
data.rs:259 and 263 are modelled by the outer Option. -/
def migrateFeeds (fromId toId : SubscriberId) (feeds : FeedId → Option Feed) :
    List FeedId → Option (FeedId → Option Feed)
  | [] => some feeds
  | fid :: rest =>
    match feeds fid with
    | none => none
    | some feed =>
      match feed.settings with
      | none => none
      | some m =>
        match m fromId with
        | none => none
        | some setting =>
          let feed1 : Feed :=
            { feed with
              subscribers := listInsert toId (listRemove fromId feed.subscribers)
              settings := some (mapInsert toId setting (mapRemove fromId m)) }
          migrateFeeds fromId toId (mapInsert fid feed1 feeds) rest

/-- Model of `Database::update_subscriber` (data.rs:254-270), the
subscriber migration.  Note the source does not call save here. -/
def Database.update_subscriber (db : Database) (fromId toId : SubscriberId) :
    Option (Bool × Database) :=
  match db.subscribers fromId with
  | none => some (false, db)
  | some fids =>
    match migrateFeeds fromId toId db.feeds fids with
    | none => none
    | some feeds1 =>
      some (true,
        { db with feeds := feeds1
                  subscribers := mapInsert toId fids (mapRemove fromId db.subscribers) })

/-- Model of `Database::get_setting` (data.rs:272-288).  Outer `none`
models the panic of the unwraps at data.rs:279 and 281 (settings map
absent, or no entry for the subscriber in an existing feed); the inner
Option is the source's return value. -/
def Database.get_setting (db : Database) (subscriber : SubscriberId) (rss_link : String) :
    Option (Option FeedSettings) :=
  match db.feeds (genHash rss_link) with
  | none => some none
  | some feed =>
    match feed.settings with
    | none => none
    | some m =>
      match m subscriber with
      | none => none
      | some setting => some (some (get_combined_feed_settings (some setting)))

/-- Update payloads (data.rs:366-369). -/
inductive FeedUpdate where
  | Items (items : List Item)
  | Title (title : String)
  deriving DecidableEq, Repr

/-- Loop at data.rs:321-327: walk the fetched items in order, collecting
those whose identity hash is absent from the stored hash list, together
with their hashes. -/
def collectNew (hashList : List Nat) : List Item → List Item × List Nat
  | [] => ([], [])
  | item :: rest =>
    let hash := genItemHash item
    let p := collectNew hashList rest
    if hash ∈ hashList then p else (item :: p.1, hash :: p.2)

/-- Model of `Database::update` (data.rs:307-350). -/
def Database.update (db : Database) (rss_link : String) (new_feed : Rss) :
    List FeedUpdate × Database :=
  let feed_id := genHash rss_link
  match db.feeds feed_id with
  | none => ([], db)
  | some feed0 =>
    let feed : Feed := { feed0 with down_time := none }
    let items_len := new_feed.items.length
    let p := collectNew feed.hash_list new_feed.items
    let new_items := p.1
    let new_hash_list := p.2
    let updates0 : List FeedUpdate :=
      if new_items.isEmpty then [] else [FeedUpdate.Items new_items]
    let feed1 : Feed :=
      if new_items.isEmpty then feed
      else { feed with hash_list :=
               new_hash_list ++ feed.hash_list.take (items_len * 2 - new_hash_list.length) }
    let updates : List FeedUpdate :=
      if new_feed.title = feed1.title then updates0
      else updates0 ++ [FeedUpdate.Title new_feed.title]
    let feed2 : Feed :=
      if new_feed.title = feed1.title then feed1 else { feed1 with title := new_feed.title }
    let feed3 : Feed := { feed2 with ttl := new_feed.ttl }
    let db1 : Database := { db with feeds := mapInsert feed_id feed3 db.feeds }
    if updates.isEmpty then (updates, db1) else (updates, db1.save)

/-- Classification of one channel send result, as matched by
`push_message` (fetcher.rs:188-217) on tbot::errors::MethodCall: success,
a RequestError whose description satisfies chat_is_unavailable, a
RequestError carrying migrate_to_chat_id, a RequestError carrying
retry_after, or any other error (abstract payload). -/
inductive SendOutcome where
  | success
  | unavailable
  | migrated (newId : SubscriberId)
  | rateLimited (delay : Nat)
  | other (err : Nat)
  deriving DecidableEq, Repr

/-- Retry loop of `push_message` (fetcher.rs:183-219): fuel is the number
of remaining iterations of `for _ in 0..3`, k indexes successive channel
calls, s is the current (possibly re-bound) subscriber id.  The settings
unwrap at fetcher.rs:185 is modelled by the outer Option, panics of the
store operations propagate likewise; the result is the function's
`Result<(), MethodCall>` together with the store. -/
def pushMessageLoop (settings : FeedSettings) (responses : Nat → SendOutcome) :
    Nat → Nat → SubscriberId → Database → Option (Except Nat Database)
  | 0, _, _, db => some (Except.ok db)
  | Nat.succ n, k, s, db =>
    match settings.disable_preview with
    | none => none
    | some _ =>
      match responses k with
      | SendOutcome.unavailable =>
        match db.delete_subscriber s with
        | none => none
        | some (_, db1) => some (Except.ok db1)
      | SendOutcome.migrated newId =>
        match db.update_subscriber s newId with
        | none => none
        | some (_, db1) => pushMessageLoop settings responses n (k + 1) newId db1
      | SendOutcome.rateLimited _ => pushMessageLoop settings responses n (k + 1) s db
      | SendOutcome.success => some (Except.ok db)
      | SendOutcome.other e => some (Except.error e)

/-- Model of `push_message` (fetcher.rs:175-221): at most 3 attempts; the
k-th channel call (bot.send_message …) returns `responses k`. -/
def push_message (db : Database) (subscriber : SubscriberId) (settings : FeedSettings)
    (responses : Nat → SendOutcome) : Option (Except Nat Database) :=
  pushMessageLoop settings responses 3 0 subscriber db

/-- Throttle (fetcher.rs:264-283): the shared counter is a wrapping usize;
acquire is fetch_add(1) returning the previous value, the slot is that
value modulo pieces. -/
structure Throttle where
  pieces : Nat
  counter : Nat

/-- Model of `Throttle::new` (fetcher.rs:270-275). -/
def Throttle.new (pieces : Nat) : Throttle := ⟨pieces, 0⟩

/-- Model of `Throttle::acquire` (fetcher.rs:277-283): returns the
assigned slot number (the Opportunity's stagger delay in seconds) and the
post-increment state. -/
def Throttle.acquire (t : Throttle) : Nat × Throttle :=
  (t.counter % t.pieces, { t with counter := (t.counter + 1) % usizeSize })

/-- Model of `Drop for Opportunity` (fetcher.rs:297-301): wrapping
fetch_sub(1). -/
def Throttle.release (t : Throttle) : Throttle :=
  { t with counter := (t.counter + (usizeSize - 1)) % usizeSize }

/-- Sequence of n acquisitions, collecting the assigned slots in order. -/
def Throttle.acquires : Nat → Throttle → List Nat × Throttle
  | 0, t => ([], t)
  | n + 1, t =>
    let p := t.acquire
    let q := Throttle.acquires n p.2
    (p.1 :: q.1, q.2)

/-- Sequence of n releases. -/
def Throttle.releases : Nat → Throttle → Throttle
  | 0, t => t
  | n + 1, t => Throttle.releases n t.release

/-- Specification-side characterization of the change-detection core: a
fetched item is new iff its identity hash is absent from the stored hash
list, in fetch order. -/
def freshItems (hashList : List Nat) (items : List Item) : List Item :=
  items.filter (fun it => decide (genItemHash it ∉ hashList))

/-- Specification-side characterization of the feed record stored by a
successful `Database::update` call on a known feed. -/
def updatedFeed (f : Feed) (rss : Rss) : Feed :=
  { link := f.link
    title := rss.title
    down_time := none
    subscribers := f.subscribers
    ttl := rss.ttl
    hash_list :=
      if (freshItems f.hash_list rss.items).isEmpty then f.hash_list
      else (freshItems f.hash_list rss.items).map genItemHash ++
        f.hash_list.take (rss.items.length * 2 - (freshItems f.hash_list rss.items).length)
    settings := f.settings }

/-- Specification-side characterization of the update list returned by
`Database::update` on a known feed. -/
def updateOutList (f : Feed) (rss : Rss) : List FeedUpdate :=
  (if (freshItems f.hash_list rss.items).isEmpty then []
   else [FeedUpdate.Items (freshItems f.hash_list rss.items)]) ++
  (if rss.title = f.title then [] else [FeedUpdate.Title rss.title])

/-- Payload of an Items update, used to count Items updates in a result. -/
def itemsPayload : FeedUpdate → Option (List Item)
  | FeedUpdate.Items l => some l
  | FeedUpdate.Title _ => none

/-- One subscribe or unsubscribe call of a store history. -/
inductive Action where
  | sub (s : SubscriberId) (url : String) (rss : Rss)
  | unsub (s : SubscriberId) (url : String)

/-- Execution of a sequence of subscribe/unsubscribe calls; `none` if any
call panics. -/
def runActions : List Action → Database → Option Database
  | [], db => some db
  | Action.sub s url rss :: rest, db =>
    match db.subscribe s url rss with
    | none => none
    | some (_, db1) => runActions rest db1
  | Action.unsub s url :: rest, db =>
    match db.unsubscribe s url with
    | none => none
    | some (_, db1) => runActions rest db1

/-- Well-formedness of a store: the documented data-model invariants of
spec section 3.  `inv` is the bidirectional subscriber-index invariant,
`feedNonempty` says a feed exists iff its subscriber set is non-empty,
`settingsOk` the subscriber-set/settings-map agreement (with the settings
map present), `nodupIndex` is the set-ness of the modelled HashSet. -/
structure WF (db : Database) : Prop where
  nodupIndex : ∀ s l, db.subscribers s = some l → l.Nodup
  inv : ∀ s fid, (∃ l, db.subscribers s = some l ∧ fid ∈ l) ↔
      (∃ F, db.feeds fid = some F ∧ s ∈ F.subscribers)
  feedNonempty : ∀ fid F, db.feeds fid = some F → F.subscribers ≠ []
  settingsOk : ∀ fid F, db.feeds fid = some F →
      ∃ m, F.settings = some m ∧ ∀ s, s ∈ F.subscribers ↔ (m s).isSome

/-- Item with a stable identifier, as in the spec scenarios. -/
def mkItem (s : String) : Item := ⟨some s, none, none⟩

/-- Fetched feed of the C2 scenario seed: items with ids 1 and 2. -/
def rssA12 : Rss := ⟨"T", none, [mkItem "1", mkItem "2"]⟩

/-- Fetched feed of the C2 scenario update: items with ids 1, 2 and 3. -/
def rssB123 : Rss := ⟨"T", none, [mkItem "1", mkItem "2", mkItem "3"]⟩

/-- Feed URL of the C2 scenario. -/
def scenarioUrl : String := "https://a/feed.xml"

/-- Fallback feed value for total projections of scenario stores. -/
def dummyFeed : Feed := ⟨"", "", none, [], none, [], none⟩

/-- Store of the C2/C8 scenarios: subscriber 42 subscribed to the
scenario feed seeded from items 1 and 2. -/
def dbC2 : Database :=
  match Database.empty.subscribe 42 scenarioUrl rssA12 with
  | some (_, d) => d
  | none => Database.empty

/-- The scenario feed record stored in dbC2. -/
def fC2 : Feed := (dbC2.feeds (genHash scenarioUrl)).getD dummyFeed

/-- Fetched feed with items 1, 2, 3 used to seed the C3 counterexample. -/
def rss123 : Rss := ⟨"T", none, [mkItem "1", mkItem "2", mkItem "3"]⟩

/-- Fetched feed holding only item 1. -/
def rss1only : Rss := ⟨"T", none, [mkItem "1"]⟩

/-- Store with one feed "u" seeded from three items, for C3. -/
def dbC3 : Database :=
  match Database.empty.subscribe 1 "u" rss123 with
  | some (_, d) => d
  | none => Database.empty

/-- The feed record stored in dbC3. -/
def fC3 : Feed := (dbC3.feeds (genHash "u")).getD dummyFeed

/-- Fetched feed with one new item, for the C3 amended witness. -/
def rssNew9 : Rss := ⟨"T", none, [mkItem "9"]⟩

/-- Fetched feed with items a, b, c, d used to seed the C4 counterexample. -/
def rssABCD : Rss := ⟨"T", none, [mkItem "a", mkItem "b", mkItem "c", mkItem "d"]⟩

/-- Shrunken fetch: one fresh item x plus the previously seen item d. -/
def rssXD : Rss := ⟨"T", none, [mkItem "x", mkItem "d"]⟩

/-- Store with one feed "u" seeded from four items, for C4. -/
def dbC4 : Database :=
  match Database.empty.subscribe 1 "u" rssABCD with
  | some (_, d) => d
  | none => Database.empty

/-- The feed record stored in dbC4. -/
def fC4 : Feed := (dbC4.feeds (genHash "u")).getD dummyFeed

/-- Store of the C6 scenario before migration: subscriber 7 subscribed
to feed "u". -/
def dbC6 : Database :=
  match Database.empty.subscribe 7 "u" rss1only with
  | some (_, d) => d
  | none => Database.empty

/-- Fully merged default settings. -/
def combinedDefaults : FeedSettings := get_combined_feed_settings none

/-- Settings map of the C5 witness store. -/
def settingsW5 : SubscriberId → Option FeedSettings :=
  fun s => if s = 7 then some FeedSettings.defaultSettings else none

/-- Feed record of the C5 witness store. -/
def feedW5 : Feed := ⟨"u", "t", none, [7], none, [], some settingsW5⟩

/-- Concrete well-formed store for the C5 witness: one feed "u" with the
single subscriber 7. -/
def dbW5 : Database :=
  { feeds := fun fid => if fid = genHash "u" then some feedW5 else none
    subscribers := fun s => if s = 7 then some [genHash "u"] else none
    saveCount := 0 }

/-- Settings map of the C10 witness store. -/
def settingsW10 : SubscriberId → Option FeedSettings :=
  fun s => if s = 7 then some FeedSettings.defaultSettings else none

/-- Feed record of the C10 witness store. -/
def feedW10 : Feed := ⟨"u", "t", none, [7], none, [], some settingsW10⟩

/-- Concrete store for the C10 witness. -/
def dbW10 : Database :=
  { feeds := fun fid => if fid = genHash "u" then some feedW10 else none
    subscribers := fun s => if s = 7 then some [genHash "u"] else none
    saveCount := 0 }

/-- Cover invariant carried along the migration chain of push_message:
every index entry is duplicate-free and each feed it names exists, has a
settings map, and has a settings entry for that subscriber.  Unlike full
well-formedness it is preserved by `update_subscriber` for arbitrary
identifiers (whose insert overwrites the target's index entry). -/
def SettingsCover (db : Database) : Prop :=
  ∀ s fids, db.subscribers s = some fids →
    fids.Nodup ∧ ∀ fid ∈ fids, ∃ F m,
      db.feeds fid = some F ∧ F.settings = some m ∧ (m s).isSome

/-- Outcomes on which the push_message retry loop continues to the next
attempt (fetcher.rs:197-213): a migrated target or a rate limit. -/
def continuesRetry (o : SendOutcome) : Prop :=
  (∃ d, o = SendOutcome.rateLimited d) ∨ (∃ n, o = SendOutcome.migrated n)

/-- Response schedule of the C7 witness: a migrated outcome, then an
unclassified error. -/
def respW : Nat → SendOutcome :=
  fun k =>
    if k = 0 then SendOutcome.migrated 9
    else if k = 1 then SendOutcome.other 5
    else SendOutcome.success

/- ------------------------------------------------------------------ -/
/- Theorems.                                                           -/
/- ------------------------------------------------------------------ -/

@[simp] theorem mapInsert_same {κ α : Type} [DecidableEq κ] (k : κ) (v : α) (m) :
    mapInsert k v m k = some v := by simp [mapInsert]

@[simp] theorem mapInsert_other {κ α : Type} [DecidableEq κ] (k k2 : κ) (v : α) (m)
    (h : k2 ≠ k) : mapInsert k v m k2 = m k2 := by simp [mapInsert, h]

@[simp] theorem mapRemove_same {κ α : Type} [DecidableEq κ] (k : κ) (m : κ → Option α) :
    mapRemove k m k = none := by simp [mapRemove]

@[simp] theorem mapRemove_other {κ α : Type} [DecidableEq κ] (k k2 : κ) (m : κ → Option α)
    (h : k2 ≠ k) : mapRemove k m k2 = m k2 := by simp [mapRemove, h]

@[simp] theorem mem_listInsert {α : Type} [DecidableEq α] (a b : α) (l : List α) :
    b ∈ listInsert a l ↔ b = a ∨ b ∈ l := by
  by_cases h : a ∈ l
  · simp only [listInsert, if_pos h]
    constructor
    · intro hb; exact Or.inr hb
    · rintro (rfl | hb)
      · exact h
      · exact hb
  · simp [listInsert, h]

@[simp] theorem mem_listRemove {α : Type} [DecidableEq α] (a b : α) (l : List α) :
    b ∈ listRemove a l ↔ b ∈ l ∧ b ≠ a := by
  simp [listRemove]

theorem listInsert_ne_nil {α : Type} [DecidableEq α] (a : α) (l : List α) :
    listInsert a l ≠ [] := by
  by_cases h : a ∈ l
  · simp only [listInsert, if_pos h]
    intro hnil; subst hnil; simp at h
  · simp [listInsert, h]

theorem listInsert_nodup {α : Type} [DecidableEq α] (a : α) (l : List α)
    (h : l.Nodup) : (listInsert a l).Nodup := by
  by_cases ha : a ∈ l <;> simp [listInsert, ha, h]

theorem listRemove_nodup {α : Type} [DecidableEq α] (a : α) (l : List α)
    (h : l.Nodup) : (listRemove a l).Nodup := by
  exact h.filter _

theorem collectNew_eq (hl : List Nat) :
    ∀ items, collectNew hl items = (freshItems hl items, (freshItems hl items).map genItemHash)
  | [] => rfl
  | item :: rest => by
    have ih := collectNew_eq hl rest
    by_cases h : genItemHash item ∈ hl
    · simp [collectNew, freshItems, List.filter_cons, h, ih]
    · simp [collectNew, freshItems, List.filter_cons, h, ih]

theorem update_known (db : Database) (url : String) (rss : Rss) (f : Feed)
    (h : db.feeds (genHash url) = some f) :
    db.update url rss =
      (updateOutList f rss,
        let db1 : Database :=
          { db with feeds := mapInsert (genHash url) (updatedFeed f rss) db.feeds }
        if (updateOutList f rss).isEmpty then db1 else db1.save) := by
  simp only [Database.update, h, collectNew_eq]
  by_cases hf : (freshItems f.hash_list rss.items).isEmpty
  · by_cases ht : rss.title = f.title
    · simp [updateOutList, updatedFeed, hf, ht]
    · simp [updateOutList, updatedFeed, hf, ht]
  · by_cases ht : rss.title = f.title
    · simp [updateOutList, updatedFeed, hf, ht]
    · simp [updateOutList, updatedFeed, hf, ht]

/-- C8 counterexample: calling `update` on the known scenario feed with
unchanged content produces no updates and does NOT invoke save (the source
only saves when the update list is non-empty, data.rs:346-348), refuting
the claim that every call on a known feed persists the store. -/
theorem update_save_counterexample :
    (dbC2.feeds (genHash scenarioUrl)).isSome = true ∧
    (dbC2.update scenarioUrl rssA12).1 = [] ∧
    (dbC2.update scenarioUrl rssA12).2.saveCount = dbC2.saveCount :=
  ⟨rfl, rfl, rfl⟩

/-- C8 (amended): on a known feed, `Database::update` invokes save exactly
when the returned update list is non-empty; a call that only refreshes the
TTL (no new items, unchanged title) does not persist. -/
theorem update_save_iff_updates (db : Database) (url : String) (rss : Rss) (f : Feed)
    (h : db.feeds (genHash url) = some f) :
    (db.update url rss).2.saveCount =
      db.saveCount + (if (db.update url rss).1.isEmpty then 0 else 1) := by
  rw [update_known db url rss f h]
  by_cases hu : (updateOutList f rss).isEmpty
  · simp [hu]
  · simp [hu, Database.save]

/-- Witness for the amended C8 theorem at the concrete scenario store. -/
theorem update_save_iff_updates_witness :
    dbC2.feeds (genHash scenarioUrl) = some fC2 ∧
    (dbC2.update scenarioUrl rssB123).2.saveCount =
      dbC2.saveCount + (if (dbC2.update scenarioUrl rssB123).1.isEmpty then 0 else 1) :=
  ⟨rfl, update_save_iff_updates dbC2 scenarioUrl rssB123 fC2 rfl⟩

/-- C3 counterexample: the feed of dbC3 stores a hash list of 3 entries;
updating it with a 1-item fetch whose item is already known leaves the
hash list at length 3, which exceeds 2 x 1 (the list is only recomputed
when at least one item is new, data.rs:328-340), refuting the claim for
every call. -/
theorem hash_list_cap_counterexample :
    ((dbC3.update "u" rss1only).2.feeds (genHash "u")).map (fun f => f.hash_list.length) =
      some 3 ∧
    ¬(3 ≤ 2 * rss1only.items.length) :=
  ⟨rfl, by decide⟩

/-- C3 (amended): after a call of `update` on a known feed that reports at
least one new item, the stored hash list length is at most 2 x the latest
item count; and an item whose identity hash is already present in the
stored hash list is never included in the returned Items update (this
second part holds for every call). -/
theorem hash_list_cap_amended (db : Database) (url : String) (rss : Rss) (f : Feed)
    (h : db.feeds (genHash url) = some f) :
    (freshItems f.hash_list rss.items ≠ [] →
      ∀ f2, (db.update url rss).2.feeds (genHash url) = some f2 →
        f2.hash_list.length ≤ 2 * rss.items.length) ∧
    (∀ l, FeedUpdate.Items l ∈ (db.update url rss).1 →
      ∀ it ∈ l, genItemHash it ∉ f.hash_list) := by
  rw [update_known db url rss f h]
  constructor
  · intro hne f2 hf2
    have hfeed : f2 = updatedFeed f rss := by
      by_cases hu : (updateOutList f rss).isEmpty <;>
        simp [hu, Database.save] at hf2 <;> exact hf2.symm
    subst hfeed
    have hne2 : (freshItems f.hash_list rss.items).isEmpty = false := by
      simpa [List.isEmpty_iff] using hne
    have h1 : (freshItems f.hash_list rss.items).length ≤ rss.items.length :=
      List.length_filter_le _ _
    have h2 : (f.hash_list.take
        (rss.items.length * 2 - (freshItems f.hash_list rss.items).length)).length ≤
        rss.items.length * 2 - (freshItems f.hash_list rss.items).length := by
      simp
    unfold updatedFeed
    simp only [hne2, Bool.false_eq_true, if_false, List.length_append, List.length_map]
    omega
  · intro l hl it hit
    have hlf : l = freshItems f.hash_list rss.items := by
      rcases List.mem_append.mp hl with h1 | h1
      · by_cases hf : (freshItems f.hash_list rss.items).isEmpty <;> simp [hf] at h1
        exact h1
      · by_cases ht : rss.title = f.title <;> simp [ht] at h1
    subst hlf
    simp only [freshItems, List.mem_filter, decide_eq_true_eq] at hit
    exact hit.2

/-- Witness for the amended C3 theorem: updating the dbC3 feed with one
fresh item yields a hash list within the cap. -/
theorem hash_list_cap_amended_witness :
    dbC3.feeds (genHash "u") = some fC3 ∧
    freshItems fC3.hash_list rssNew9.items ≠ [] ∧
    ∀ f2, (dbC3.update "u" rssNew9).2.feeds (genHash "u") = some f2 →
      f2.hash_list.length ≤ 2 * rssNew9.items.length :=
  ⟨rfl, by decide, (hash_list_cap_amended dbC3 "u" rssNew9 fC3 rfl).1 (by decide)⟩

/-- C2: in `update` on a known feed, a fetched item is reported as new iff
its identity hash is absent from the stored hash list; all new items form
exactly one Items update and none is emitted when no item is new.
Concretely: after subscribing subscriber 42 from items 1 and 2, the hash
list has 2 entries; updating with items 1, 2, 3 returns exactly one Items
update containing only item 3, and the resulting hash list holds all 3
item hashes. -/
theorem update_reports_new_items :
    (∀ (db : Database) (url : String) (rss : Rss) (f : Feed),
        db.feeds (genHash url) = some f →
        ((db.update url rss).1.filterMap itemsPayload =
          if (freshItems f.hash_list rss.items).isEmpty then []
          else [freshItems f.hash_list rss.items]) ∧
        (∀ it ∈ rss.items,
          ((∃ l, FeedUpdate.Items l ∈ (db.update url rss).1 ∧ it ∈ l) ↔
            genItemHash it ∉ f.hash_list))) ∧
    fC2.hash_list.length = 2 ∧
    (dbC2.update scenarioUrl rssB123).1 = [FeedUpdate.Items [mkItem "3"]] ∧
    ((dbC2.update scenarioUrl rssB123).2.feeds (genHash scenarioUrl)).map Feed.hash_list =
      some [genItemHash (mkItem "3"), genItemHash (mkItem "1"), genItemHash (mkItem "2")] ∧
    rssB123.items.all (fun it =>
      [genItemHash (mkItem "3"), genItemHash (mkItem "1"),
        genItemHash (mkItem "2")].contains (genItemHash it)) = true := by
  refine ⟨?_, rfl, rfl, rfl, by decide⟩
  intro db url rss f h
  rw [update_known db url rss f h]
  constructor
  · unfold updateOutList
    by_cases hf : (freshItems f.hash_list rss.items).isEmpty <;>
      by_cases ht : rss.title = f.title <;> simp [hf, ht, itemsPayload]
  · intro it hit
    constructor
    · rintro ⟨l, hl, hitl⟩
      have hlf : l = freshItems f.hash_list rss.items := by
        rcases List.mem_append.mp hl with h1 | h1
        · by_cases hfe : (freshItems f.hash_list rss.items).isEmpty <;> simp [hfe] at h1
          exact h1
        · by_cases ht : rss.title = f.title <;> simp [ht] at h1
      subst hlf
      simp only [freshItems, List.mem_filter, decide_eq_true_eq] at hitl
      exact hitl.2
    · intro habs
      have hmem : it ∈ freshItems f.hash_list rss.items := by
        simp only [freshItems, List.mem_filter, decide_eq_true_eq]
        exact ⟨hit, habs⟩
      have hne : (freshItems f.hash_list rss.items).isEmpty = false := by
        simp [List.isEmpty_iff]
        exact List.ne_nil_of_mem hmem
      refine ⟨freshItems f.hash_list rss.items, ?_, hmem⟩
      apply List.mem_append.mpr
      left
      simp [updateOutList, hne]

/-- Witness for the C2 theorem at the concrete scenario store. -/
theorem update_reports_new_items_witness :
    dbC2.feeds (genHash scenarioUrl) = some fC2 ∧
    ((dbC2.update scenarioUrl rssB123).1.filterMap itemsPayload =
      if (freshItems fC2.hash_list rssB123.items).isEmpty then []
      else [freshItems fC2.hash_list rssB123.items]) :=
  ⟨rfl, (update_reports_new_items.1 dbC2 scenarioUrl rssB123 fC2 rfl).1⟩

/-- C4 counterexample: the dbC4 feed stores 4 hashes; updating with the
2-item fetch [x, d] truncates the kept history to 3 old hashes, dropping
the hash of d, so an immediately-repeated identical update re-reports item
d instead of returning an empty list. -/
theorem update_idempotent_counterexample :
    (dbC4.feeds (genHash "u")).isSome = true ∧
    ((dbC4.update "u" rssXD).2.update "u" rssXD).1 = [FeedUpdate.Items [mkItem "d"]] ∧
    ([FeedUpdate.Items [mkItem "d"]] : List FeedUpdate) ≠ [] :=
  ⟨rfl, rfl, by decide⟩

/-- C4 (amended): update is idempotent on immediately-repeated identical
input whenever the first call reports no new item, or the stored hash list
plus the new hashes fit under the cap of 2 x the fetched item count (so no
stored hash is truncated away): the second call then returns an empty
update list. -/
theorem update_idempotent_amended (db : Database) (url : String) (rss : Rss) (f : Feed)
    (h : db.feeds (genHash url) = some f)
    (hcap : freshItems f.hash_list rss.items = [] ∨
      f.hash_list.length + (freshItems f.hash_list rss.items).length ≤
        2 * rss.items.length) :
    ((db.update url rss).2.update url rss).1 = [] := by
  have h2 : (db.update url rss).2.feeds (genHash url) = some (updatedFeed f rss) := by
    rw [update_known db url rss f h]
    by_cases hu : (updateOutList f rss).isEmpty <;> simp [hu, Database.save]
  rw [update_known _ url rss _ h2]
  have hall : ∀ it ∈ rss.items, genItemHash it ∈ (updatedFeed f rss).hash_list := by
    intro it hit
    rcases hcap with hemp | hle
    · have hfe : (freshItems f.hash_list rss.items).isEmpty = true := by
        simp [List.isEmpty_iff, hemp]
      have hnotfresh : genItemHash it ∈ f.hash_list := by
        by_contra habs
        have : it ∈ freshItems f.hash_list rss.items := by
          simp only [freshItems, List.mem_filter, decide_eq_true_eq]
          exact ⟨hit, habs⟩
        rw [hemp] at this
        simp at this
      unfold updatedFeed
      simp only [hfe, if_true]
      exact hnotfresh
    · by_cases hin : genItemHash it ∈ f.hash_list
      · by_cases hfe : (freshItems f.hash_list rss.items).isEmpty
        · unfold updatedFeed
          simp only [hfe, if_true]
          exact hin
        · have hfe2 : (freshItems f.hash_list rss.items).isEmpty = false := by
            simpa using hfe
          have htake : f.hash_list.take
              (rss.items.length * 2 - (freshItems f.hash_list rss.items).length) =
              f.hash_list := by
            apply List.take_of_length_le
            omega
          unfold updatedFeed
          simp only [hfe2, Bool.false_eq_true, if_false, htake]
          exact List.mem_append.mpr (Or.inr hin)
      · have hmem : it ∈ freshItems f.hash_list rss.items := by
          simp only [freshItems, List.mem_filter, decide_eq_true_eq]
          exact ⟨hit, hin⟩
        have hfe2 : (freshItems f.hash_list rss.items).isEmpty = false := by
          simp [List.isEmpty_iff]
          exact List.ne_nil_of_mem hmem
        unfold updatedFeed
        simp only [hfe2, Bool.false_eq_true, if_false]
        exact List.mem_append.mpr (Or.inl (List.mem_map_of_mem genItemHash hmem))
  have hfresh2 : freshItems (updatedFeed f rss).hash_list rss.items = [] := by
    unfold freshItems
    apply List.filter_eq_nil_iff.mpr
    intro it hit
    simp only [decide_eq_true_eq, not_not]
    exact hall it hit
  have htitle : rss.title = (updatedFeed f rss).title := rfl
  simp [updateOutList, hfresh2, ← htitle]

/-- Witness for the amended C4 theorem: repeating the seeding fetch (every
item already stored, no truncation) yields an empty second update list. -/
theorem update_idempotent_amended_witness :
    dbC3.feeds (genHash "u") = some fC3 ∧
    (freshItems fC3.hash_list rss123.items = [] ∨
      fC3.hash_list.length + (freshItems fC3.hash_list rss123.items).length ≤
        2 * rss123.items.length) ∧
    ((dbC3.update "u" rss123).2.update "u" rss123).1 = [] :=
  ⟨rfl, by decide, update_idempotent_amended dbC3 "u" rss123 fC3 rfl (by decide)⟩

/-- C9: each acquisition is assigned the counter value before increment
modulo the capacity, the counter is incremented (wrapping) on acquire and
decremented (wrapping) unconditionally on release; with capacity 3, five
acquisitions yield slots 0, 1, 2, 0, 1 and after five releases the counter
is back to 0. -/
theorem throttle_slots :
    (∀ t : Throttle,
      (t.acquire).1 = t.counter % t.pieces ∧
      (t.acquire).2.counter = (t.counter + 1) % usizeSize ∧
      (t.release).counter = (t.counter + (usizeSize - 1)) % usizeSize) ∧
    (∀ t : Throttle, 0 < t.counter → t.counter < usizeSize →
      (t.release).counter = t.counter - 1) ∧
    (Throttle.acquires 5 (Throttle.new 3)).1 = [0, 1, 2, 0, 1] ∧
    (Throttle.releases 5 (Throttle.acquires 5 (Throttle.new 3)).2).counter = 0 := by
  refine ⟨fun t => ⟨rfl, rfl, rfl⟩, ?_, by decide, by decide⟩
  intro t h0 hlt
  simp only [Throttle.release, usizeSize] at *
  omega

/-- Witness for the release-decrement part of the C9 theorem. -/
theorem throttle_slots_witness :
    0 < 5 ∧ 5 < usizeSize ∧ (Throttle.release ⟨3, 5⟩).counter = 5 - 1 :=
  ⟨by decide, by decide, throttle_slots.2.1 ⟨3, 5⟩ (by decide) (by decide)⟩

/-- C10: get_combined_feed_settings always returns all four fields set,
resolving unset fields to the documented defaults (disable_preview true,
link_only false, hide_rss_title false, combine_msg true), is idempotent,
and consequently every settings value successfully returned by get_setting
has all four fields set. -/
theorem combined_feed_settings_defaults :
    (∀ s : Option FeedSettings,
      (get_combined_feed_settings s).disable_preview =
        some ((s.getD FeedSettings.defaultSettings).disable_preview.getD true) ∧
      (get_combined_feed_settings s).link_only =
        some ((s.getD FeedSettings.defaultSettings).link_only.getD false) ∧
      (get_combined_feed_settings s).hide_rss_title =
        some ((s.getD FeedSettings.defaultSettings).hide_rss_title.getD false) ∧
      (get_combined_feed_settings s).combine_msg =
        some ((s.getD FeedSettings.defaultSettings).combine_msg.getD true)) ∧
    (∀ s : Option FeedSettings,
      get_combined_feed_settings (some (get_combined_feed_settings s)) =
        get_combined_feed_settings s) ∧
    (∀ (db : Database) (subscriber : SubscriberId) (url : String) (fs : FeedSettings),
      db.get_setting subscriber url = some (some fs) →
      fs.disable_preview.isSome ∧ fs.link_only.isSome ∧
        fs.hide_rss_title.isSome ∧ fs.combine_msg.isSome) := by
  refine ⟨fun s => ⟨rfl, rfl, rfl, rfl⟩, fun s => rfl, ?_⟩
  intro db subscriber url fs h
  simp only [Database.get_setting] at h
  split at h
  · simp at h
  · rename_i feed hfeed
    split at h
    · simp at h
    · rename_i m hm
      split at h
      · simp at h
      · rename_i setting hs
        have hfs : fs = get_combined_feed_settings (some setting) := by
          simpa using h.symm
        subst hfs
        exact ⟨rfl, rfl, rfl, rfl⟩

/-- Witness for the get_setting part of the C10 theorem at a concrete
store. -/
theorem combined_feed_settings_defaults_witness :
    dbW10.get_setting 7 "u" = some (some combinedDefaults) ∧
    (combinedDefaults.disable_preview.isSome ∧ combinedDefaults.link_only.isSome ∧
      combinedDefaults.hide_rss_title.isSome ∧ combinedDefaults.combine_msg.isSome) :=
  ⟨rfl, combined_feed_settings_defaults.2.2 dbW10 7 "u" combinedDefaults rfl⟩

/-- C6 (code bug): in the store where subscriber 7 subscribed to feed "u"
and was then migrated to 9001, the feed still exists, get_setting 9001
returns the settings 7 had before the migration, but get_setting 7 PANICS
(the unwrap at data.rs:281 on the missing settings entry, modelled by the
outer `none`) instead of returning nothing as the specification states. -/
theorem get_setting_after_migration_panics :
    dbC6.get_setting 7 "u" = some (some combinedDefaults) ∧
    (dbC6.update_subscriber 7 9001).map (fun r =>
      (r.1, (r.2.feeds (genHash "u")).isSome,
        r.2.get_setting 7 "u", r.2.get_setting 9001 "u")) =
      some (true, true, none, some (some combinedDefaults)) :=
  ⟨rfl, rfl⟩

theorem pushMessageLoop_zero (st : FeedSettings) (r : Nat → SendOutcome) (k : Nat)
    (s : SubscriberId) (db : Database) :
    pushMessageLoop st r 0 k s db = some (Except.ok db) := rfl

theorem pushMessageLoop_rateLimited (st : FeedSettings) (r : Nat → SendOutcome)
    (n k : Nat) (s : SubscriberId) (db : Database) (b : Bool) (d : Nat)
    (hb : st.disable_preview = some b) (h : r k = SendOutcome.rateLimited d) :
    pushMessageLoop st r (n + 1) k s db = pushMessageLoop st r n (k + 1) s db := by
  simp [pushMessageLoop, hb, h]

theorem pushMessageLoop_other (st : FeedSettings) (r : Nat → SendOutcome)
    (n k : Nat) (s : SubscriberId) (db : Database) (b : Bool) (e : Nat)
    (hb : st.disable_preview = some b) (h : r k = SendOutcome.other e) :
    pushMessageLoop st r (n + 1) k s db = some (Except.error e) := by
  simp [pushMessageLoop, hb, h]

/-- C7 counterexample: three consecutive rate-limited responses exhaust
the 3 retry attempts, after which `push_message` falls out of the loop and
returns Ok (fetcher.rs:219-220) instead of propagating an error, refuting
the retries-exhausted half of the claim. -/
theorem push_message_exhaustion_counterexample :
    push_message Database.empty 5 combinedDefaults (fun _ => SendOutcome.rateLimited 1) =
      some (Except.ok Database.empty) := rfl

theorem mapOrInsert_isSome {κ α : Type} [DecidableEq κ] (k k2 : κ) (v : α)
    (m : κ → Option α) :
    ((mapOrInsert k v m) k2).isSome = (if k2 = k then true else (m k2).isSome) := by
  unfold mapOrInsert
  cases h : m k
  · by_cases hk : k2 = k <;> simp [mapInsert, hk]
  · by_cases hk : k2 = k <;> simp [mapInsert, hk, h]

theorem WF_empty : WF Database.empty := by
  constructor
  · intro s l h; simp [Database.empty] at h
  · intro s fid; simp [Database.empty]
  · intro fid F h; simp [Database.empty] at h
  · intro fid F h; simp [Database.empty] at h

theorem WF_save (db : Database) (h : WF db) : WF db.save :=
  ⟨h.nodupIndex, h.inv, h.feedNonempty, h.settingsOk⟩

theorem WF_subscribe_core (db : Database) (s : SubscriberId) (fid : FeedId)
    (feed1 : Feed) (subs0 : List SubscriberId) (m : SubscriberId → Option FeedSettings)
    (hwf : WF db)
    (hfs : feed1.subscribers = listInsert s subs0)
    (hfset : feed1.settings = some (mapOrInsert s FeedSettings.defaultSettings m))
    (hsubs0 : ∀ s2, (∃ F, db.feeds fid = some F ∧ s2 ∈ F.subscribers) ↔ s2 ∈ subs0)
    (hm : ∀ s2, s2 ∈ subs0 ↔ (m s2).isSome) :
    WF { db with
      subscribers := mapInsert s (listInsert fid ((db.subscribers s).getD [])) db.subscribers
      feeds := mapInsert fid feed1 db.feeds } := by
  have hl0nodup : ((db.subscribers s).getD []).Nodup := by
    cases hsub : db.subscribers s with
    | none => simp
    | some l => simpa using hwf.nodupIndex s l hsub
  constructor
  · intro s2 l h
    by_cases hs2 : s2 = s
    · subst hs2
      simp only [mapInsert_same] at h
      cases h
      exact listInsert_nodup _ _ hl0nodup
    · simp only [mapInsert_other _ _ _ _ hs2] at h
      exact hwf.nodupIndex s2 l h
  · intro s2 fid2
    by_cases hs2 : s2 = s <;> by_cases hf2 : fid2 = fid
    · subst hs2; subst hf2
      simp [hfs]
    · subst hs2
      simp only [mapInsert_same, mapInsert_other _ _ _ _ hf2]
      have base := hwf.inv s2 fid2
      constructor
      · rintro ⟨l, hl, hmem⟩
        cases hl
        rcases (mem_listInsert _ _ _).mp hmem with rfl | hmem2
        · exact absurd rfl hf2
        · apply base.mp
          cases hsub : db.subscribers s2 with
          | none => simp [hsub] at hmem2
          | some l1 => exact ⟨l1, rfl, by simpa [hsub] using hmem2⟩
      · intro hr
        obtain ⟨l1, hl1, hmem1⟩ := base.mpr hr
        exact ⟨listInsert fid ((db.subscribers s2).getD []), rfl,
          (mem_listInsert _ _ _).mpr (Or.inr (by simp [hl1, hmem1]))⟩
    · subst hf2
      simp only [mapInsert_same, mapInsert_other _ _ _ _ hs2]
      have base := hwf.inv s2 fid2
      constructor
      · intro hl
        refine ⟨feed1, rfl, ?_⟩
        rw [hfs]
        exact (mem_listInsert _ _ _).mpr (Or.inr ((hsubs0 s2).mp (base.mp hl)))
      · rintro ⟨F, hF, hmem⟩
        cases hF
        rw [hfs] at hmem
        rcases (mem_listInsert _ _ _).mp hmem with rfl | hmem2
        · exact absurd rfl hs2
        · exact base.mpr ((hsubs0 s2).mpr hmem2)
    · simp only [mapInsert_other _ _ _ _ hs2, mapInsert_other _ _ _ _ hf2]
      exact hwf.inv s2 fid2
  · intro fid2 F h
    by_cases hf2 : fid2 = fid
    · subst hf2
      simp only [mapInsert_same] at h
      cases h
      rw [hfs]
      exact listInsert_ne_nil _ _
    · simp only [mapInsert_other _ _ _ _ hf2] at h
      exact hwf.feedNonempty fid2 F h
  · intro fid2 F h
    by_cases hf2 : fid2 = fid
    · subst hf2
      simp only [mapInsert_same] at h
      cases h
      refine ⟨mapOrInsert s FeedSettings.defaultSettings m, hfset, ?_⟩
      intro s2
      rw [hfs, mapOrInsert_isSome]
      by_cases hs2 : s2 = s
      · subst hs2; simp
      · simp only [if_neg hs2]
        constructor
        · intro hmem
          rcases (mem_listInsert _ _ _).mp hmem with rfl | hmem2
          · exact absurd rfl hs2
          · exact (hm s2).mp hmem2
        · intro hsome
          exact (mem_listInsert _ _ _).mpr (Or.inr ((hm s2).mpr hsome))
    · simp only [mapInsert_other _ _ _ _ hf2] at h
      exact hwf.settingsOk fid2 F h

theorem subscribe_WF (db : Database) (s : SubscriberId) (url : String) (rss : Rss)
    (hwf : WF db) :
    ∃ r db2, db.subscribe s url rss = some (r, db2) ∧ WF db2 := by
  by_cases hmem : genHash url ∈ (db.subscribers s).getD []
  · exact ⟨false, db, by simp [Database.subscribe, hmem], hwf⟩
  · cases hfeed : db.feeds (genHash url) with
    | none =>
      refine ⟨true, Database.save { db with
          subscribers :=
            mapInsert s (listInsert (genHash url) ((db.subscribers s).getD [])) db.subscribers
          feeds := mapInsert (genHash url)
            { link := url, title := rss.title, down_time := none
              subscribers := listInsert s [], ttl := rss.ttl
              hash_list := rss.items.map genItemHash
              settings := some (mapOrInsert s FeedSettings.defaultSettings (fun _ => none)) }
            db.feeds }, ?_, ?_⟩
      · simp [Database.subscribe, hfeed, hmem, listInsert]
      · exact WF_save _ (WF_subscribe_core db s (genHash url) _ [] (fun _ => none) hwf rfl rfl
          (by simp [hfeed]) (by simp))
    | some f =>
      obtain ⟨m, hms, hmiff⟩ := hwf.settingsOk _ f hfeed
      refine ⟨true, Database.save { db with
          subscribers :=
            mapInsert s (listInsert (genHash url) ((db.subscribers s).getD [])) db.subscribers
          feeds := mapInsert (genHash url)
            { f with subscribers := listInsert s f.subscribers
                     settings := some (mapOrInsert s FeedSettings.defaultSettings m) }
            db.feeds }, ?_, ?_⟩
      · simp [Database.subscribe, hfeed, hmem, hms]
      · exact WF_save _ (WF_subscribe_core db s (genHash url) _ f.subscribers m hwf rfl rfl
          (by simp [hfeed]) hmiff)

theorem WF_unsubscribe_core (db : Database) (s : SubscriberId) (fid : FeedId)
    (l : List FeedId) (F : Feed) (m : SubscriberId → Option FeedSettings)
    (hwf : WF db)
    (hsub : db.subscribers s = some l)
    (hF : db.feeds fid = some F)
    (hmiff : ∀ s2, s2 ∈ F.subscribers ↔ (m s2).isSome) :
    WF { db with
      subscribers :=
        if (listRemove fid l).isEmpty then mapRemove s db.subscribers
        else mapInsert s (listRemove fid l) db.subscribers
      feeds :=
        if (listRemove s F.subscribers).isEmpty then mapRemove fid db.feeds
        else mapInsert fid
          { F with subscribers := listRemove s F.subscribers
                   settings := some (mapRemove s m) }
          db.feeds } := by
  have hS : ∀ s2, (if (listRemove fid l).isEmpty then mapRemove s db.subscribers
      else mapInsert s (listRemove fid l) db.subscribers) s2 =
      if s2 = s then (if (listRemove fid l).isEmpty then none else some (listRemove fid l))
      else db.subscribers s2 := by
    intro s2
    by_cases he : (listRemove fid l).isEmpty <;> by_cases hs2 : s2 = s <;>
      simp [he, hs2, mapRemove, mapInsert]
  have hFd : ∀ fid2, (if (listRemove s F.subscribers).isEmpty then mapRemove fid db.feeds
      else mapInsert fid
        { F with subscribers := listRemove s F.subscribers
                 settings := some (mapRemove s m) } db.feeds) fid2 =
      if fid2 = fid then
        (if (listRemove s F.subscribers).isEmpty then none
         else some { F with subscribers := listRemove s F.subscribers
                            settings := some (mapRemove s m) })
      else db.feeds fid2 := by
    intro fid2
    by_cases he : (listRemove s F.subscribers).isEmpty <;> by_cases hf2 : fid2 = fid <;>
      simp [he, hf2, mapRemove, mapInsert]
  have hEl : (listRemove fid l).isEmpty = true → ∀ x ∈ l, x = fid := by
    intro he x hx
    rw [List.isEmpty_iff] at he
    have := List.filter_eq_nil_iff.mp he x hx
    simpa using this
  have hEs : (listRemove s F.subscribers).isEmpty = true → ∀ x ∈ F.subscribers, x = s := by
    intro he x hx
    rw [List.isEmpty_iff] at he
    have := List.filter_eq_nil_iff.mp he x hx
    simpa using this
  constructor
  · intro s2 l2 h
    simp only [hS] at h
    by_cases hs2 : s2 = s
    · rw [if_pos hs2] at h
      by_cases he : (listRemove fid l).isEmpty
      · rw [if_pos he] at h; cases h
      · rw [if_neg he] at h
        cases h
        exact listRemove_nodup _ _ (hwf.nodupIndex s l hsub)
    · rw [if_neg hs2] at h
      exact hwf.nodupIndex s2 l2 h
  · intro s2 fid2
    simp only [hS, hFd]
    by_cases hs2 : s2 = s <;> by_cases hf2 : fid2 = fid
    · subst hs2; subst hf2
      rw [if_pos rfl, if_pos rfl]
      constructor
      · rintro ⟨l2, hl2, hmem2⟩
        by_cases he : (listRemove fid2 l).isEmpty
        · rw [if_pos he] at hl2; cases hl2
        · rw [if_neg he] at hl2
          cases hl2
          simp at hmem2
      · rintro ⟨F2, hF2, hmem2⟩
        by_cases he : (listRemove s2 F.subscribers).isEmpty
        · rw [if_pos he] at hF2; cases hF2
        · rw [if_neg he] at hF2
          cases hF2
          simp at hmem2
    · subst hs2
      rw [if_pos rfl, if_neg hf2]
      have base := hwf.inv s2 fid2
      have hold : (∃ l2, db.subscribers s2 = some l2 ∧ fid2 ∈ l2) ↔ fid2 ∈ l := by
        constructor
        · rintro ⟨l2, hl2, hm2⟩
          rw [hsub] at hl2; cases hl2; exact hm2
        · intro hm2; exact ⟨l, hsub, hm2⟩
      by_cases he : (listRemove fid l).isEmpty
      · rw [if_pos he]
        constructor
        · rintro ⟨l2, hl2, _⟩; cases hl2
        · intro hr
          have hm2 := hold.mp (base.mpr hr)
          exact absurd (hEl he fid2 hm2) hf2
      · rw [if_neg he]
        constructor
        · rintro ⟨l2, hl2, hm2⟩
          cases hl2
          simp only [mem_listRemove] at hm2
          exact base.mp (hold.mpr hm2.1)
        · intro hr
          exact ⟨listRemove fid l, rfl, by simp [hold.mp (base.mpr hr), hf2]⟩
    · subst hf2
      rw [if_neg hs2, if_pos rfl]
      have base := hwf.inv s2 fid2
      have hold : (∃ F2, db.feeds fid2 = some F2 ∧ s2 ∈ F2.subscribers) ↔ s2 ∈ F.subscribers := by
        constructor
        · rintro ⟨F2, hF2, hm2⟩
          rw [hF] at hF2; cases hF2; exact hm2
        · intro hm2; exact ⟨F, hF, hm2⟩
      by_cases he : (listRemove s F.subscribers).isEmpty
      · rw [if_pos he]
        constructor
        · intro hlhs
          have hm2 := hold.mp (base.mp hlhs)
          exact absurd (hEs he s2 hm2) hs2
        · rintro ⟨F2, hF2, _⟩; cases hF2
      · rw [if_neg he]
        constructor
        · intro hlhs
          refine ⟨_, rfl, ?_⟩
          simp only [mem_listRemove]
          exact ⟨hold.mp (base.mp hlhs), hs2⟩
        · rintro ⟨F2, hF2, hm2⟩
          cases hF2
          simp only [mem_listRemove] at hm2
          exact base.mpr (hold.mpr hm2.1)
    · rw [if_neg hs2, if_neg hf2]
      exact hwf.inv s2 fid2
  · intro fid2 F2 h
    simp only [hFd] at h
    by_cases hf2 : fid2 = fid
    · rw [if_pos hf2] at h
      by_cases he : (listRemove s F.subscribers).isEmpty
      · rw [if_pos he] at h; cases h
      · rw [if_neg he] at h
        cases h
        intro hnil
        rw [← List.isEmpty_iff] at hnil
        exact he (by simpa using hnil)
    · rw [if_neg hf2] at h
      exact hwf.feedNonempty fid2 F2 h
  · intro fid2 F2 h
    simp only [hFd] at h
    by_cases hf2 : fid2 = fid
    · rw [if_pos hf2] at h
      by_cases he : (listRemove s F.subscribers).isEmpty
      · rw [if_pos he] at h; cases h
      · rw [if_neg he] at h
        cases h
        refine ⟨mapRemove s m, rfl, ?_⟩
        intro s2
        by_cases hs2 : s2 = s
        · subst hs2
          simp [mem_listRemove, mapRemove]
        · simp only [mem_listRemove, mapRemove_other _ _ _ hs2]
          constructor
          · rintro ⟨hm2, _⟩; exact (hmiff s2).mp hm2
          · intro hsome; exact ⟨(hmiff s2).mpr hsome, hs2⟩
    · rw [if_neg hf2] at h
      exact hwf.settingsOk fid2 F2 h

theorem unsubscribe_WF (db : Database) (s : SubscriberId) (url : String)
    (hwf : WF db) :
    ∃ r db2, db.unsubscribe s url = some (r, db2) ∧ WF db2 := by
  cases hsub : db.subscribers s with
  | none => exact ⟨none, db, by simp [Database.unsubscribe, hsub], hwf⟩
  | some l =>
    by_cases hmem : genHash url ∈ l
    · obtain ⟨F, hF, hsF⟩ := (hwf.inv s (genHash url)).mp ⟨l, hsub, hmem⟩
      obtain ⟨m, hms, hmiff⟩ := hwf.settingsOk _ F hF
      refine ⟨some { F with subscribers := listRemove s F.subscribers
                            settings := some (mapRemove s m) },
        Database.save { db with
          subscribers :=
            if (listRemove (genHash url) l).isEmpty then mapRemove s db.subscribers
            else mapInsert s (listRemove (genHash url) l) db.subscribers
          feeds :=
            if (listRemove s F.subscribers).isEmpty then mapRemove (genHash url) db.feeds
            else mapInsert (genHash url)
              { F with subscribers := listRemove s F.subscribers
                       settings := some (mapRemove s m) } db.feeds }, ?_, ?_⟩
      · simp [Database.unsubscribe, hsub, hmem, hF, hms, hsF]
      · exact WF_save _ (WF_unsubscribe_core db s (genHash url) l F m hwf hsub hF hmiff)
    · exact ⟨none, db, by simp [Database.unsubscribe, hsub, hmem], hwf⟩

theorem runActions_WF : ∀ (acts : List Action) (db : Database), WF db →
    ∃ db2, runActions acts db = some db2 ∧ WF db2
  | [], db, hwf => ⟨db, rfl, hwf⟩
  | Action.sub s url rss :: rest, db, hwf => by
    obtain ⟨r, db1, heq, hwf1⟩ := subscribe_WF db s url rss hwf
    obtain ⟨db2, heq2, hwf2⟩ := runActions_WF rest db1 hwf1
    exact ⟨db2, by simp [runActions, heq, heq2], hwf2⟩
  | Action.unsub s url :: rest, db, hwf => by
    obtain ⟨r, db1, heq, hwf1⟩ := unsubscribe_WF db s url hwf
    obtain ⟨db2, heq2, hwf2⟩ := runActions_WF rest db1 hwf1
    exact ⟨db2, by simp [runActions, heq, heq2], hwf2⟩

/-- C1: for every sequence of subscribe and unsubscribe calls starting
from the empty store, no call panics, and in the resulting store the
subscriber index and the feeds' subscriber sets are mutual inverses (a
feed id is in a subscriber's index entry iff that subscriber is in that
feed's subscriber set), and a feed exists in the store iff its subscriber
set is non-empty. -/
theorem subscribe_unsubscribe_invariant (acts : List Action) :
    ∃ db2, runActions acts Database.empty = some db2 ∧
      (∀ s fid, (∃ l, db2.subscribers s = some l ∧ fid ∈ l) ↔
        (∃ F, db2.feeds fid = some F ∧ s ∈ F.subscribers)) ∧
      (∀ fid F, db2.feeds fid = some F → F.subscribers ≠ []) := by
  obtain ⟨db2, heq, hwf⟩ := runActions_WF acts Database.empty WF_empty
  exact ⟨db2, heq, hwf.inv, hwf.feedNonempty⟩

theorem migrateFeeds_spec (A B : SubscriberId) :
    ∀ (fids : List FeedId) (feeds : FeedId → Option Feed),
      fids.Nodup →
      (∀ fid ∈ fids, ∃ F m, feeds fid = some F ∧ F.settings = some m ∧ (m A).isSome) →
      ∃ feeds2, migrateFeeds A B feeds fids = some feeds2 ∧
        (∀ fid, fid ∉ fids → feeds2 fid = feeds fid) ∧
        (∀ fid ∈ fids, ∀ F m sA, feeds fid = some F → F.settings = some m → m A = some sA →
          feeds2 fid = some { F with
            subscribers := listInsert B (listRemove A F.subscribers)
            settings := some (mapInsert B sA (mapRemove A m)) })
  | [], feeds, _, _ => ⟨feeds, rfl, fun _ _ => rfl, fun fid h => absurd h (List.not_mem_nil fid)⟩
  | fid0 :: rest, feeds, hnodup, hex => by
    obtain ⟨F0, m0, hF0, hm0, hsome0⟩ := hex fid0 (List.mem_cons_self _ _)
    obtain ⟨sA0, hsA0⟩ := Option.isSome_iff_exists.mp hsome0
    have hrestN : rest.Nodup := (List.nodup_cons.mp hnodup).2
    have hnotin : fid0 ∉ rest := (List.nodup_cons.mp hnodup).1
    have hexr : ∀ fid ∈ rest, ∃ F m,
        (mapInsert fid0 { F0 with
          subscribers := listInsert B (listRemove A F0.subscribers)
          settings := some (mapInsert B sA0 (mapRemove A m0)) } feeds) fid = some F ∧
        F.settings = some m ∧ (m A).isSome := by
      intro fid hfid
      have hne : fid ≠ fid0 := fun h => hnotin (h ▸ hfid)
      rw [mapInsert_other _ _ _ _ hne]
      exact hex fid (List.mem_cons_of_mem _ hfid)
    obtain ⟨feeds2, heq, huntouched, htouched⟩ :=
      migrateFeeds_spec A B rest (mapInsert fid0 _ feeds) hrestN hexr
    refine ⟨feeds2, ?_, ?_, ?_⟩
    · simp [migrateFeeds, hF0, hm0, hsA0, heq]
    · intro fid hfid
      have hne : fid ≠ fid0 := fun h => hfid (h ▸ List.mem_cons_self _ _)
      have h2 : fid ∉ rest := fun h => hfid (List.mem_cons_of_mem _ h)
      rw [huntouched fid h2, mapInsert_other _ _ _ _ hne]
    · intro fid hfid F m sA hFeq hmeq hsAeq
      rcases List.mem_cons.mp hfid with rfl | hfr
      · rw [hF0] at hFeq
        cases hFeq
        rw [hm0] at hmeq
        cases hmeq
        rw [hsA0] at hsAeq
        cases hsAeq
        rw [huntouched fid hnotin, mapInsert_same]
      · have hne : fid ≠ fid0 := fun h => hnotin (h ▸ hfr)
        exact htouched fid hfr F m sA
          (by rw [mapInsert_other _ _ _ _ hne]; exact hFeq) hmeq hsAeq

/-- C5: in a well-formed store where subscriber A has an index entry and B
has none, `update_subscriber A B` returns true and moves A's entire index
entry and all per-feed subscriber-set and settings-map entries to B: for
every feed A was subscribed to, get_setting of B afterwards returns
exactly what get_setting of A returned before, and A appears in no feed's
subscriber set, no settings map, and not in the index; if A has no index
entry the call is a no-op returning false. -/
theorem update_subscriber_migrates (db : Database) (A B : SubscriberId) :
    (∀ fidsA, WF db → db.subscribers A = some fidsA → db.subscribers B = none →
      ∃ db2, db.update_subscriber A B = some (true, db2) ∧
        (∀ url, genHash url ∈ fidsA → db2.get_setting B url = db.get_setting A url) ∧
        db2.subscribers A = none ∧
        (∀ fid F, db2.feeds fid = some F →
          A ∉ F.subscribers ∧ ∀ m, F.settings = some m → m A = none)) ∧
    (db.subscribers A = none → db.update_subscriber A B = some (false, db)) := by
  constructor
  · intro fidsA hwf hA hB
    have hAB : A ≠ B := fun h => by rw [h, hB] at hA; cases hA
    have hnodup := hwf.nodupIndex A fidsA hA
    have hex : ∀ fid ∈ fidsA, ∃ F m,
        db.feeds fid = some F ∧ F.settings = some m ∧ (m A).isSome := by
      intro fid hfid
      obtain ⟨F, hF, hsF⟩ := (hwf.inv A fid).mp ⟨fidsA, hA, hfid⟩
      obtain ⟨m, hms, hmiff⟩ := hwf.settingsOk fid F hF
      exact ⟨F, m, hF, hms, (hmiff A).mp hsF⟩
    obtain ⟨feeds2, heq, huntouched, htouched⟩ :=
      migrateFeeds_spec A B fidsA db.feeds hnodup hex
    refine ⟨{ db with
        feeds := feeds2
        subscribers := mapInsert B fidsA (mapRemove A db.subscribers) }, ?_, ?_, ?_, ?_⟩
    · simp [Database.update_subscriber, hA, heq]
    · intro url hurl
      obtain ⟨F, m, hF, hms, hsome⟩ := hex _ hurl
      obtain ⟨sA, hsA⟩ := Option.isSome_iff_exists.mp hsome
      have h2 := htouched _ hurl F m sA hF hms hsA
      have hL : Database.get_setting { db with
          feeds := feeds2
          subscribers := mapInsert B fidsA (mapRemove A db.subscribers) } B url =
          some (some (get_combined_feed_settings (some sA))) := by
        simp [Database.get_setting, h2]
      have hR : db.get_setting A url =
          some (some (get_combined_feed_settings (some sA))) := by
        simp [Database.get_setting, hF, hms, hsA]
      rw [hL, hR]
    · show mapInsert B fidsA (mapRemove A db.subscribers) A = none
      rw [mapInsert_other _ _ _ _ hAB, mapRemove_same]
    · intro fid F hfd
      by_cases hfid : fid ∈ fidsA
      · obtain ⟨F0, m0, hF0, hm0, hsome0⟩ := hex fid hfid
        obtain ⟨sA0, hsA0⟩ := Option.isSome_iff_exists.mp hsome0
        have h2 := htouched fid hfid F0 m0 sA0 hF0 hm0 hsA0
        have hfd2 : F = { F0 with
            subscribers := listInsert B (listRemove A F0.subscribers)
            settings := some (mapInsert B sA0 (mapRemove A m0)) } := by
          have := hfd.symm.trans h2
          exact Option.some.inj this.symm |>.symm
        subst hfd2
        constructor
        · intro hAmem
          rcases (mem_listInsert _ _ _).mp hAmem with h | h
          · exact hAB h
          · exact ((mem_listRemove _ _ _).mp h).2 rfl
        · intro m hm
          cases hm
          rw [mapInsert_other _ _ _ _ hAB, mapRemove_same]
      · have hfd3 : db.feeds fid = some F := (huntouched fid hfid).symm.trans hfd
        obtain ⟨m, hms, hmiff⟩ := hwf.settingsOk fid F hfd3
        have hnotmem : A ∉ F.subscribers := by
          intro hc
          obtain ⟨l, hl, hfl⟩ := (hwf.inv A fid).mpr ⟨F, hfd3, hc⟩
          rw [hA] at hl
          cases hl
          exact hfid hfl
        refine ⟨hnotmem, ?_⟩
        intro m2 hm2
        rw [hms] at hm2
        cases hm2
        cases hmA : m A with
        | none => rfl
        | some v => exact absurd ((hmiff A).mpr (by simp [hmA])) hnotmem
  · intro hA
    simp [Database.update_subscriber, hA]

theorem WF_dbW5 : WF dbW5 := by
  constructor
  · intro s l h
    simp only [dbW5] at h
    by_cases hs : s = 7
    · rw [if_pos hs] at h
      cases h
      simp
    · rw [if_neg hs] at h
      cases h
  · intro s fid
    simp only [dbW5]
    by_cases hs : s = 7 <;> by_cases hf : fid = genHash "u" <;>
      simp [hs, hf, feedW5]
  · intro fid F h
    simp only [dbW5] at h
    by_cases hf : fid = genHash "u"
    · rw [if_pos hf] at h
      cases h
      simp [feedW5]
    · rw [if_neg hf] at h
      cases h
  · intro fid F h
    simp only [dbW5] at h
    by_cases hf : fid = genHash "u"
    · rw [if_pos hf] at h
      cases h
      refine ⟨settingsW5, rfl, ?_⟩
      intro s
      by_cases hs : s = 7 <;> simp [feedW5, settingsW5, hs]
    · rw [if_neg hf] at h
      cases h

/-- Witness for the C5 theorem at the concrete one-feed store. -/
theorem update_subscriber_migrates_witness :
    WF dbW5 ∧ dbW5.subscribers 7 = some [genHash "u"] ∧ dbW5.subscribers 9001 = none ∧
    ∃ db2, dbW5.update_subscriber 7 9001 = some (true, db2) ∧
      (∀ url, genHash url ∈ [genHash "u"] → db2.get_setting 9001 url = dbW5.get_setting 7 url) ∧
      db2.subscribers 7 = none ∧
      (∀ fid F, db2.feeds fid = some F →
        (7 : SubscriberId) ∉ F.subscribers ∧ ∀ m, F.settings = some m → m 7 = none) :=
  ⟨WF_dbW5, rfl, rfl, (update_subscriber_migrates dbW5 7 9001).1 [genHash "u"] WF_dbW5 rfl rfl⟩

theorem pushMessageLoop_migrated (st : FeedSettings) (r : Nat → SendOutcome)
    (n k : Nat) (s : SubscriberId) (db : Database) (b : Bool) (B : SubscriberId)
    (rr : Bool) (db2 : Database)
    (hb : st.disable_preview = some b) (h : r k = SendOutcome.migrated B)
    (hupd : db.update_subscriber s B = some (rr, db2)) :
    pushMessageLoop st r (n + 1) k s db = pushMessageLoop st r n (k + 1) B db2 := by
  simp [pushMessageLoop, hb, h, hupd]

theorem SettingsCover_empty : SettingsCover Database.empty := by
  intro s fids h
  simp [Database.empty] at h

theorem update_subscriber_total (db : Database) (A B : SubscriberId)
    (hcov : SettingsCover db) :
    ∃ r db2, db.update_subscriber A B = some (r, db2) ∧ SettingsCover db2 := by
  cases hA : db.subscribers A with
  | none =>
    refine ⟨false, db, ?_, hcov⟩
    simp [Database.update_subscriber, hA]
  | some fids =>
    obtain ⟨hnodup, hex⟩ := hcov A fids hA
    obtain ⟨feeds2, heq, huntouched, htouched⟩ :=
      migrateFeeds_spec A B fids db.feeds hnodup hex
    refine ⟨true, { db with
        feeds := feeds2
        subscribers := mapInsert B fids (mapRemove A db.subscribers) }, ?_, ?_⟩
    · simp [Database.update_subscriber, hA, heq]
    · intro s2 l2 h2
      have h2b : mapInsert B fids (mapRemove A db.subscribers) s2 = some l2 := h2
      by_cases hB : s2 = B
      · rw [hB, mapInsert_same] at h2b
        cases h2b
        refine ⟨hnodup, ?_⟩
        intro fid hfid
        obtain ⟨F, m, hF, hm, hsome⟩ := hex fid hfid
        obtain ⟨sA, hsA⟩ := Option.isSome_iff_exists.mp hsome
        have ht := htouched fid hfid F m sA hF hm hsA
        refine ⟨_, _, ht, rfl, ?_⟩
        rw [hB]
        simp
      · rw [mapInsert_other _ _ _ _ hB] at h2b
        by_cases hA2 : s2 = A
        · rw [hA2, mapRemove_same] at h2b
          cases h2b
        · rw [mapRemove_other _ _ _ hA2] at h2b
          obtain ⟨hnodup2, hex2⟩ := hcov s2 l2 h2b
          refine ⟨hnodup2, ?_⟩
          intro fid hfid
          obtain ⟨F, m, hF, hm, hsome⟩ := hex2 fid hfid
          by_cases hmem : fid ∈ fids
          · obtain ⟨F0, m0, hF0, hm0, hsome0⟩ := hex fid hmem
            rw [hF] at hF0
            cases hF0
            rw [hm] at hm0
            cases hm0
            obtain ⟨sA, hsA⟩ := Option.isSome_iff_exists.mp hsome0
            have ht := htouched fid hmem F m sA hF hm hsA
            refine ⟨_, _, ht, rfl, ?_⟩
            rw [mapInsert_other _ _ _ _ hB, mapRemove_other _ _ _ hA2]
            exact hsome
          · exact ⟨F, m, (huntouched fid hmem).trans hF, hm, hsome⟩

theorem pushMessageLoop_all_retry (st : FeedSettings) (responses : Nat → SendOutcome)
    (b : Bool) (hb : st.disable_preview = some b) :
    ∀ (n k : Nat) (s : SubscriberId) (db : Database), SettingsCover db →
      (∀ i, i < n → continuesRetry (responses (k + i))) →
      ∃ db2, pushMessageLoop st responses n k s db = some (Except.ok db2)
  | 0, _, _, db, _, _ => ⟨db, rfl⟩
  | n + 1, k, s, db, hcov, hr => by
    rcases hr 0 (Nat.succ_pos n) with ⟨d, hd⟩ | ⟨B, hB⟩
    · rw [Nat.add_zero] at hd
      rw [pushMessageLoop_rateLimited st responses n k s db b d hb hd]
      apply pushMessageLoop_all_retry st responses b hb n (k + 1) s db hcov
      intro i hi
      have h2 := hr (i + 1) (by omega)
      rwa [show k + (i + 1) = k + 1 + i by omega] at h2
    · rw [Nat.add_zero] at hB
      obtain ⟨rr, db2, hupd, hcov2⟩ := update_subscriber_total db s B hcov
      rw [pushMessageLoop_migrated st responses n k s db b B rr db2 hb hB hupd]
      apply pushMessageLoop_all_retry st responses b hb n (k + 1) B db2 hcov2
      intro i hi
      have h2 := hr (i + 1) (by omega)
      rwa [show k + (i + 1) = k + 1 + i by omega] at h2

theorem pushMessageLoop_retry_then_other (st : FeedSettings)
    (responses : Nat → SendOutcome) (b : Bool) (e : Nat)
    (hb : st.disable_preview = some b) :
    ∀ (n i k : Nat) (s : SubscriberId) (db : Database), SettingsCover db →
      i < n →
      (∀ j, j < i → continuesRetry (responses (k + j))) →
      responses (k + i) = SendOutcome.other e →
      pushMessageLoop st responses n k s db = some (Except.error e)
  | 0, i, _, _, _, _, hi, _, _ => absurd hi (Nat.not_lt_zero i)
  | n + 1, 0, k, s, db, _, _, _, hoth => by
    rw [Nat.add_zero] at hoth
    exact pushMessageLoop_other st responses n k s db b e hb hoth
  | n + 1, i + 1, k, s, db, hcov, hi, hj, hoth => by
    rcases hj 0 (Nat.succ_pos i) with ⟨d, hd⟩ | ⟨B, hB⟩
    · rw [Nat.add_zero] at hd
      rw [pushMessageLoop_rateLimited st responses n k s db b d hb hd]
      apply pushMessageLoop_retry_then_other st responses b e hb n i (k + 1) s db hcov
        (by omega)
      · intro j hjj
        have h2 := hj (j + 1) (by omega)
        rwa [show k + (j + 1) = k + 1 + j by omega] at h2
      · rwa [show k + (i + 1) = k + 1 + i by omega] at hoth
    · rw [Nat.add_zero] at hB
      obtain ⟨rr, db2, hupd, hcov2⟩ := update_subscriber_total db s B hcov
      rw [pushMessageLoop_migrated st responses n k s db b B rr db2 hb hB hupd]
      apply pushMessageLoop_retry_then_other st responses b e hb n i (k + 1) B db2 hcov2
        (by omega)
      · intro j hjj
        have h2 := hj (j + 1) (by omega)
        rwa [show k + (j + 1) = k + 1 + j by omega] at h2
      · rwa [show k + (i + 1) = k + 1 + i by omega] at hoth

/-- C7 (amended): with the store satisfying the settings-cover invariant,
an error not classified as permanently-unavailable, migrated or
rate-limited is propagated to the caller whenever it is reached within the
3 attempts, after any prefix of migrated or rate-limited outcomes; but
when the attempts are exhausted without a success (every attempt migrated
or rate-limited), the function returns success, not an error. -/
theorem push_message_error_propagation (db : Database) (s : SubscriberId)
    (st : FeedSettings) (responses : Nat → SendOutcome) (e : Nat)
    (hdp : st.disable_preview.isSome) (hcov : SettingsCover db) :
    ((∀ i, i < 3 → continuesRetry (responses i)) →
      ∃ db2, push_message db s st responses = some (Except.ok db2)) ∧
    (∀ i, i < 3 → (∀ j, j < i → continuesRetry (responses j)) →
      responses i = SendOutcome.other e →
      push_message db s st responses = some (Except.error e)) := by
  obtain ⟨b, hb⟩ := Option.isSome_iff_exists.mp hdp
  constructor
  · intro hr
    apply pushMessageLoop_all_retry st responses b hb 3 0 s db hcov
    intro i hi
    rw [Nat.zero_add]
    exact hr i hi
  · intro i hi hj hoth
    apply pushMessageLoop_retry_then_other st responses b e hb 3 i 0 s db hcov hi
    · intro j hjj
      rw [Nat.zero_add]
      exact hj j hjj
    · rw [Nat.zero_add]
      exact hoth

/-- Witness for the amended C7 theorem: a migrated outcome on the first
attempt followed by an unclassified error on the second attempt is
propagated to the caller. -/
theorem push_message_error_propagation_witness :
    combinedDefaults.disable_preview.isSome ∧
    SettingsCover Database.empty ∧
    (1 : Nat) < 3 ∧
    (∀ j, j < 1 → continuesRetry (respW j)) ∧
    respW 1 = SendOutcome.other 5 ∧
    push_message Database.empty 6 combinedDefaults respW = some (Except.error 5) :=
  ⟨rfl, SettingsCover_empty, by omega,
    fun j hj => by
      have hj0 : j = 0 := by omega
      subst hj0
      exact Or.inr ⟨9, rfl⟩,
    rfl,
    (push_message_error_propagation Database.empty 6 combinedDefaults respW 5 rfl
        SettingsCover_empty).2 1 (by omega)
      (fun j hj => by
        have hj0 : j = 0 := by omega
        subst hj0
        exact Or.inr ⟨9, rfl⟩)
      rfl⟩
